import Mathlib

/-!
Verification of the md-reader-pro security core (`src/rust-cli`): the
path-validation allowlist engine (`path_validator.rs`), the read-only lock
guard (`ro_lock.rs`), the plugin token validator (`main.rs`) and the IPC
batch validation (`ipc.rs`).  Paths are modelled as Unix path strings;
the filesystem (canonicalization, symlink status, command execution) is an
explicit parameter, since the Rust code queries it through `std::fs` and
`std::process::Command`.
-/

set_option maxRecDepth 16384

deriving instance DecidableEq for Except

namespace MdReader

/-! ## Unix path model (mirrors `std::path` component parsing) -/

/-- Split a character list at every occurrence of `sep` (keeping empty
chunks, like `str::split`). -/
def splitOnChar (sep : Char) : List Char → List (List Char)
  | [] => [[]]
  | c :: t =>
    match splitOnChar sep t with
    | [] => [[c]]
    | seg :: rest =>
      if c = sep then [] :: seg :: rest else (c :: seg) :: rest

/-- Slash-separated segments of a path string, empty segments dropped. -/
def rawSegs (s : String) : List String :=
  ((splitOnChar '/' s.data).filter (fun l => l ≠ [])).map (fun l => String.mk l)

/-- Is the path absolute (does its string start with `/`)? -/
def isAbs (s : String) : Bool :=
  match s.data with
  | c :: _ => c = '/'
  | [] => false

/-- Components of a path the way `std::path::Path::components` yields them on
Unix: a leading `/` gives a root component (rendered here as `"/"`); `.`
segments are normalized away except at the start of a relative path. -/
def pathComponents (s : String) : List String :=
  if isAbs s then
    "/" :: (rawSegs s).filter (fun c => c ≠ ".")
  else
    match rawSegs s with
    | [] => []
    | c :: rest =>
      if c = "." then c :: rest.filter (fun x => x ≠ ".")
      else (c :: rest).filter (fun x => x ≠ ".")

/-- `Path::starts_with`: component-wise prefix test. -/
def pathStartsWith (child base : String) : Bool :=
  (pathComponents base).isPrefixOf (pathComponents child)

/-- `Path` equality: component-wise equality. -/
def pathEq (a b : String) : Bool :=
  pathComponents a == pathComponents b

/-- Render a component list back into a path string. -/
def renderComps : List String → String
  | [] => ""
  | "/" :: rest => "/" ++ String.intercalate "/" rest
  | comps => String.intercalate "/" comps

/-- `Path::parent`: the path without its final component; `none` for the
root or the empty path. -/
def parentPath (s : String) : Option String :=
  match (pathComponents s).getLast? with
  | none => none
  | some last =>
    if last = "/" then none
    else some (renderComps (pathComponents s).dropLast)

/-- `Path::file_name`: the final component when it is a normal component. -/
def fileName (s : String) : Option String :=
  match (pathComponents s).getLast? with
  | none => none
  | some last =>
    if last = "/" ∨ last = "." ∨ last = ".." then none else some last

/-- `PathBuf::join` with a relative file name. -/
def joinPath (p f : String) : String :=
  if p = "" then f
  else if p.data.getLast? = some '/' then p ++ f
  else p ++ "/" ++ f

/-- Does the list `pat` occur as a contiguous sublist of `l`?
(`str::contains` on the character level.) -/
def subListOf [DecidableEq α] (pat : List α) : List α → Bool
  | [] => pat.isEmpty
  | a :: t => pat.isPrefixOf (a :: t) || subListOf pat t

/-- `str::contains` with a string pattern: substring containment. -/
def strContains (s pat : String) : Bool :=
  subListOf pat.data s.data

/-- `str::to_lowercase` (ASCII case, sufficient for the patterns used). -/
def strLower (s : String) : String :=
  String.mk (s.data.map Char.toLower)

/-! ## Abstract filesystem

The Rust code consults the filesystem through `canonicalize`,
`symlink_metadata`/`read_link`, `is_file` and `File::open`; each query is a
field of this record so theorems quantify over every filesystem state. -/

structure FS where
  canonicalize : String → Option String
  isSymlink : String → Bool
  readlinkOk : String → Bool
  isFile : String → Bool
  openOk : String → Bool

/-! ## `path_validator.rs` -/

/-- `PathValidationError` from `src/rust-cli/src/path_validator.rs`. -/
inductive PathValidationError where
  | pathTraversal (p : String)
  | notInAllowedDirectory (p : String)
  | invalidPath (p : String)
  | ioErrorPV
  | noAllowedDirectories
deriving DecidableEq, Repr

/-- `PathValidator`: set of canonical allowed directories (modelled as a
list) plus the enforcement flag. -/
structure PathValidator where
  allowed_dirs : List String
  enforce_allowlist : Bool

/-- `PathValidator::new`: empty allowlist, enforcement on. -/
def PathValidator.new : PathValidator :=
  { allowed_dirs := [], enforce_allowlist := true }

/-- `PathValidator::new_permissive`: empty allowlist, enforcement off. -/
def PathValidator.new_permissive : PathValidator :=
  { allowed_dirs := [], enforce_allowlist := false }

/-- `clear_allowed_directories`: empties the allowlist. -/
def clear_allowed_directories (v : PathValidator) : PathValidator :=
  { v with allowed_dirs := [] }

/-- The suspicious substrings checked by `check_path_traversal`. -/
def suspiciousPatterns : List String :=
  ["../", "..\\", "/..", "\\..", "%2e%2e", "..%2f", "..%5c"]

/-- Does some component equal `..` (`Component::ParentDir`)? -/
def hasParentDirComp (s : String) : Bool :=
  (pathComponents s).any (fun c => c == "..")

/-- `check_path_traversal`: reject any `..` component; additionally, when
the raw string contains `..`, reject if the lowercased string contains one
of the suspicious patterns. -/
def check_path_traversal (path : String) : Except PathValidationError Unit :=
  if hasParentDirComp path then
    .error (.pathTraversal path)
  else if strContains path ".." then
    if suspiciousPatterns.any (fun pat => strContains (strLower path) pat) then
      .error (.pathTraversal path)
    else .ok ()
  else .ok ()

/-- `validate_symlink`: if the original path is a symlink whose target
cannot be read, fail with `IoError`; otherwise succeed. -/
def validate_symlink (fs : FS) (original : String) : Except PathValidationError Unit :=
  if fs.isSymlink original && !fs.readlinkOk original then
    .error .ioErrorPV
  else .ok ()

/-- Step 2 of `validate_path`: canonicalize, falling back to canonicalizing
the parent and re-appending the file name when the target does not exist. -/
def resolve_canonical (fs : FS) (path : String) : Except PathValidationError String :=
  match fs.canonicalize path with
  | some p => .ok p
  | none =>
    match parentPath path with
    | some parent =>
      match fs.canonicalize parent with
      | some parentCanonical =>
        match fileName path with
        | some fn => .ok (joinPath parentCanonical fn)
        | none => .error (.invalidPath path)
      | none => .error .ioErrorPV
    | none => .error .ioErrorPV

/-- The membership test of `check_allowed_directory`'s loop body. -/
def allowHit (fs : FS) (canonical d : String) : Bool :=
  (pathStartsWith canonical d || pathEq canonical d)
    || (fs.isFile d && pathEq canonical d)

/-- `check_allowed_directory`: fail-closed on an empty allowlist, otherwise
accept iff some allowed directory matches. -/
def check_allowed_directory (fs : FS) (dirs : List String) (canonical : String) :
    Except PathValidationError Unit :=
  if dirs.isEmpty then
    .error .noAllowedDirectories
  else if dirs.any (allowHit fs canonical) then
    .ok ()
  else
    .error (.notInAllowedDirectory canonical)

/-- `validate_path`: traversal check, canonicalization with parent
fallback, symlink check, then the allowlist check when enforcement is on. -/
def validate_path (fs : FS) (v : PathValidator) (path : String) :
    Except PathValidationError String :=
  match check_path_traversal path with
  | .error e => .error e
  | .ok _ =>
    match resolve_canonical fs path with
    | .error e => .error e
    | .ok canonical =>
      match validate_symlink fs path with
      | .error e => .error e
      | .ok _ =>
        if v.enforce_allowlist then
          match check_allowed_directory fs v.allowed_dirs canonical with
          | .error e => .error e
          | .ok _ => .ok canonical
        else .ok canonical

/-- Modelled from the spec: `validate_many(paths)` validates a batch and
fails on the first invalid entry (all-or-nothing).  The function
`validate_paths` is called from `src/rust-cli/src/ipc.rs` (`handle_analyze`)
but its definition is not among the sources under `src/`. -/
def validate_paths (fs : FS) (v : PathValidator) (paths : List String) :
    Except PathValidationError (List String) :=
  match paths with
  | [] => .ok []
  | p :: rest =>
    match validate_path fs v p with
    | .error e => .error e
    | .ok c =>
      match validate_paths fs v rest with
      | .error e => .error e
      | .ok cs => .ok (c :: cs)

/-! ## Token validator (`validate_plugin_token` in `src/rust-cli/src/main.rs`)

The Rust function returns `anyhow::Result<()>` and rejects via
`anyhow::bail!` with format-string messages — ad hoc strings, not a typed
error enum (no `TooShort`/`TooLong`/`InvalidCharacters` type exists in the
sources).  The error type of the embedding is therefore `String`, holding
the exact formatted message of the bail site that fired. -/

/-- The `anyhow::bail!` message of the too-short branch (embeds the
token's length). -/
def tooShortMsg (got : Nat) : String :=
  "Plugin token must be at least 32 characters long. Got " ++
  toString got ++ " characters. Use a cryptographically secure random token."

/-- The `anyhow::bail!` message of the too-long branch (embeds the
token's length). -/
def tooLongMsg (got : Nat) : String :=
  "Plugin token is too long (max 1024 characters). Got " ++
  toString got ++ " characters."

/-- The `anyhow::bail!` message of the invalid-characters branch. -/
def invalidCharsMsg : String :=
  "Plugin token contains invalid characters. Use only alphanumeric " ++
  "characters, hyphens, underscores, dots, equals, and plus signs."

/-- The character class accepted by the token validator:
ASCII alphanumeric plus `-`, `_`, `.`, `=`, `+`. -/
def validTokenChar (c : Char) : Bool :=
  c.isAlphanum || c = '-' || c = '_' || c = '.' || c = '=' || c = '+'

/-- `validate_plugin_token`: length (`str::len`, i.e. UTF-8 bytes) must be
at least 32 and at most 1024, and every character must be in the accepted
class; checks run in that order, each failure bailing with its message. -/
def validate_plugin_token (t : String) : Except String Unit :=
  if t.utf8ByteSize < 32 then .error (tooShortMsg t.utf8ByteSize)
  else if t.utf8ByteSize > 1024 then .error (tooLongMsg t.utf8ByteSize)
  else if !(t.data.all validTokenChar) then .error invalidCharsMsg
  else .ok ()

/-! ## `ro_lock.rs` -/

/-- `RoLockError` from `src/rust-cli/src/ro_lock.rs`. -/
inductive RoLockError where
  | loopDeviceError (msg : String)
  | mountError (msg : String)
  | pathNotFound (p : String)
  | writeAttemptBlocked (msg : String)
  | ioErrorRo
  | insufficientPermissions
deriving DecidableEq, Repr

/-- `LockLevel`. -/
inductive LockLevel where
  | loopDevice
  | mountReadOnly
  | fileReadOnly
  | maximum
deriving DecidableEq, Repr

/-- Outcome of running an external command through
`std::process::Command::output`. -/
inductive CmdOut where
  | success (stdout : String)
  | failed (stderr : String)
  | execErr (msg : String)
deriving DecidableEq, Repr

/-- Environment consulted by `ReadOnlyLock::acquire`: filesystem queries
plus the results of the `losetup`/`mount` commands and of creating the
temporary mount directory. -/
structure RoEnv where
  pathExists : String → Bool
  isBlockDevice : String → Bool
  isDir : String → Bool
  losetup : String → CmdOut
  tempdir : Except String String
  mount : String → String → CmdOut

/-- `ReadOnlyLock` guard state. -/
structure ReadOnlyLock where
  path : String
  lock_level : LockLevel
  loop_device : Option String
  mount_point : Option String
  is_active : Bool
deriving DecidableEq, Repr

/-- `Path::extension`: the part of the file name after its last `.`;
`none` when there is no `.` or the only `.` leads the name. -/
def extensionOf (s : String) : Option String :=
  match fileName s with
  | none => none
  | some name =>
    match (splitOnChar '.' name.data).map (fun l => String.mk l) with
    | [] => none
    | [_] => none
    | ["", _] => none
    | cs => cs.getLast?

/-- `is_block_device_or_image`: block device per metadata, or a known
disk-image extension. -/
def is_block_device_or_image (env : RoEnv) (path : String) : Bool :=
  env.isBlockDevice path ||
    (match extensionOf path with
     | some ext =>
        ["img", "iso", "raw", "qcow2", "vmdk", "vdi"].contains (strLower ext)
     | none => false)

/-- `determine_lock_level`. -/
def determine_lock_level (env : RoEnv) (path : String) : LockLevel :=
  if is_block_device_or_image env path then .loopDevice
  else if env.isDir path then .mountReadOnly
  else .fileReadOnly

/-- The stderr test used for the silent privilege downgrade. -/
def isPermissionStderr (stderr : String) : Bool :=
  strContains stderr "Permission denied" || strContains stderr "Operation not permitted"

/-- `setup_loop_device`: run `losetup -f --show -r`; on a permission
failure fall back silently (leave `loop_device` unset); on any other
failure return `LoopDeviceError`. -/
def setup_loop_device (env : RoEnv) (lk : ReadOnlyLock) :
    Except RoLockError ReadOnlyLock :=
  match env.losetup lk.path with
  | .execErr e => .error (.loopDeviceError e)
  | .failed stderr =>
    if isPermissionStderr stderr then .ok lk
    else .error (.loopDeviceError stderr)
  | .success out => .ok { lk with loop_device := some out.trim }

/-- `setup_ro_mount`: create a temporary mount point and run
`mount -o ro,noexec,nosuid,nodev`; same permission-downgrade policy. -/
def setup_ro_mount (env : RoEnv) (lk : ReadOnlyLock) :
    Except RoLockError ReadOnlyLock :=
  match env.tempdir with
  | .error e => .error (.mountError e)
  | .ok mountPoint =>
    let source := lk.loop_device.getD lk.path
    match env.mount source mountPoint with
    | .execErr e => .error (.mountError e)
    | .failed stderr =>
      if isPermissionStderr stderr then .ok lk
      else .error (.mountError stderr)
    | .success _ => .ok { lk with mount_point := some mountPoint }

/-- `ReadOnlyLock::acquire`. -/
def acquire (env : RoEnv) (path : String) : Except RoLockError ReadOnlyLock :=
  if !env.pathExists path then
    .error (.pathNotFound path)
  else
    let level := determine_lock_level env path
    let lk : ReadOnlyLock :=
      { path := path, lock_level := level, loop_device := none,
        mount_point := none, is_active := false }
    match level with
    | .maximum =>
      match (if is_block_device_or_image env path then setup_loop_device env lk
             else .ok lk) with
      | .error e => .error e
      | .ok lk2 => .ok { lk2 with is_active := true }
    | .loopDevice =>
      match setup_loop_device env lk with
      | .error e => .error e
      | .ok lk2 => .ok { lk2 with is_active := true }
    | .mountReadOnly =>
      match setup_ro_mount env lk with
      | .error e => .error e
      | .ok lk2 => .ok { lk2 with is_active := true }
    | .fileReadOnly => .ok { lk with is_active := true }

/-- The flags `open_readonly` passes to `OpenOptions`. -/
structure OpenFlags where
  read : Bool
  write : Bool
  create : Bool
  o_rdonly : Bool
  o_nofollow : Bool
deriving DecidableEq, Repr

/-- `ReadOnlyFile`: the handle returned by `open_readonly`.  The Rust type
implements only `Read` (plus `read_all`/`read_to_string`); `Write` is
deliberately not implemented, so the model carries no write operation. -/
structure ReadOnlyFile where
  flags : OpenFlags
  path : String
deriving DecidableEq, Repr

/-- `ReadOnlyLock::open_readonly`: canonicalize the locked path and the
target, require the target to start with the locked path, then open with
read-only flags (`write(false)`, `create(false)`,
`O_RDONLY | O_NOFOLLOW`). -/
def open_readonly (fs : FS) (lk : ReadOnlyLock) (target : String) :
    Except RoLockError ReadOnlyFile :=
  match fs.canonicalize lk.path with
  | none => .error .ioErrorRo
  | some canonicalLock =>
    match fs.canonicalize target with
    | none => .error .ioErrorRo
    | some canonicalTarget =>
      if !pathStartsWith canonicalTarget canonicalLock then
        .error (.writeAttemptBlocked
          ("Path " ++ target ++ " is outside locked area " ++ lk.path))
      else if fs.openOk target then
        .ok { flags := { read := true, write := false, create := false,
                         o_rdonly := true, o_nofollow := true },
              path := target }
      else .error .ioErrorRo

/-- `WriteGuard`: set of locked paths. -/
structure WriteGuard where
  locked_paths : List String

/-- Outcome type of `WriteGuard::check_write`.  The Rust function's return
type is `!`: it panics on every call, either with the boxed write-attempt
diagnostic or via `unreachable!`; there is no normal-return constructor. -/
inductive PanicOutcome where
  | writeBlocked (path locked : String)
  | unreachableNonLocked
deriving DecidableEq, Repr

/-- The per-entry condition of `check_write`'s loop: the
`if let (Ok(canonical_locked), Ok(canonical_path))` guard together with
the `starts_with` test — both paths canonicalize and the write target
falls under the locked path. -/
def lockHit (fs : FS) (p locked : String) : Bool :=
  match fs.canonicalize locked, fs.canonicalize p with
  | some canonicalLocked, some canonicalPath => pathStartsWith canonicalPath canonicalLocked
  | _, _ => false

/-- The loop of `check_write` over the locked-path list: panic with the
write-blocked diagnostic at the first hit, else fall through to the
`unreachable!` panic. -/
def checkWriteGo (fs : FS) (path : String) : List String → PanicOutcome
  | [] => .unreachableNonLocked
  | locked :: rest =>
    if lockHit fs path locked then .writeBlocked path locked
    else checkWriteGo fs path rest

/-- `WriteGuard::check_write`. -/
def check_write (fs : FS) (g : WriteGuard) (path : String) : PanicOutcome :=
  checkWriteGo fs path g.locked_paths

/-! ## Concrete scenarios used as counterexamples and witnesses -/

/-- Filesystem in which `/tmp/%2e%2e/etc` is an existing directory entry
(no symlinks): its canonical form is itself. -/
def fsPct : FS :=
  { canonicalize := fun s => if s = "/tmp/%2e%2e/etc" then some "/tmp/%2e%2e/etc" else none
    isSymlink := fun _ => false
    readlinkOk := fun _ => true
    isFile := fun _ => false
    openOk := fun _ => true }

/-- Validator allowing `/tmp`, enforcement on. -/
def vTmp : PathValidator := { allowed_dirs := ["/tmp"], enforce_allowlist := true }

/-- Filesystem with allowed directory `/tmp/A` containing a symlink
`/tmp/A/link` whose target resolves to `/tmp/B/f.txt`, outside `/tmp/A`. -/
def fsSym : FS :=
  { canonicalize := fun s =>
      if s = "/tmp/A/link" then some "/tmp/B/f.txt"
      else if s = "/tmp/A" then some "/tmp/A"
      else if s = "/tmp/A/ok.txt" then some "/tmp/A/ok.txt"
      else none
    isSymlink := fun s => s = "/tmp/A/link"
    readlinkOk := fun _ => true
    isFile := fun _ => false
    openOk := fun _ => true }

/-- Validator allowing `/tmp/A`, enforcement on. -/
def vSymA : PathValidator := { allowed_dirs := ["/tmp/A"], enforce_allowlist := true }

end MdReader

namespace MdReader

/-! ## Helper lemmas -/

theorem allowHit_eq_claim (fs : FS) (c d : String) :
    allowHit fs c d = (pathEq c d || pathStartsWith c d) := by
  unfold allowHit
  cases hps : pathStartsWith c d <;> cases hpe : pathEq c d <;>
    cases hf : fs.isFile d <;> simp [hps, hpe, hf]

theorem any_allowHit_eq_claim (fs : FS) (c : String) (dirs : List String) :
    dirs.any (allowHit fs c) = dirs.any (fun d => pathEq c d || pathStartsWith c d) := by
  induction dirs with
  | nil => rfl
  | cons d rest ih => simp only [List.any_cons, allowHit_eq_claim, ih]

theorem resolve_canonical_no_traversal (fs : FS) (p s : String) :
    resolve_canonical fs p ≠ Except.error (PathValidationError.pathTraversal s) := by
  unfold resolve_canonical
  repeat' split
  all_goals simp

theorem validate_symlink_no_traversal (fs : FS) (p s : String) :
    validate_symlink fs p ≠ Except.error (PathValidationError.pathTraversal s) := by
  unfold validate_symlink
  split <;> simp

theorem check_allowed_no_traversal (fs : FS) (dirs : List String) (c s : String) :
    check_allowed_directory fs dirs c ≠ Except.error (PathValidationError.pathTraversal s) := by
  unfold check_allowed_directory
  split <;> try split
  all_goals simp

theorem check_allowed_spec (fs : FS) (dirs : List String) (c : String)
    (hne : dirs ≠ []) :
    check_allowed_directory fs dirs c =
      (if dirs.any (fun d => pathEq c d || pathStartsWith c d)
       then Except.ok () else Except.error (.notInAllowedDirectory c)) := by
  have hempty : dirs.isEmpty = false := by
    cases dirs with
    | nil => exact absurd rfl hne
    | cons a l => rfl
  unfold check_allowed_directory
  rw [hempty, any_allowHit_eq_claim]
  simp

theorem validate_path_eq (fs : FS) (v : PathValidator) (p c : String)
    (htrav : check_path_traversal p = Except.ok ())
    (hres : resolve_canonical fs p = Except.ok c)
    (hsym : validate_symlink fs p = Except.ok ())
    (henf : v.enforce_allowlist = true) :
    validate_path fs v p =
      (match check_allowed_directory fs v.allowed_dirs c with
       | .error e => .error e
       | .ok _ => .ok c) := by
  unfold validate_path
  simp only [htrav, hres, hsym, henf, if_true]

end MdReader

namespace MdReader

/-! ## Claim theorems -/

/-- C1 (code_bug evaluation): the path `/tmp/%2e%2e/etc` contains the
encoded traversal substring `%2e%2e`, yet `check_path_traversal` accepts
it — the substring checks only run when the raw path also contains a
literal `..` — and `validate_path` validates it successfully against an
allowlist containing `/tmp`, instead of returning `PathTraversal` as the
claim requires. -/
theorem traversal_encoded_bypass :
    strContains (strLower "/tmp/%2e%2e/etc") "%2e%2e" = true ∧
    strContains "/tmp/%2e%2e/etc" ".." = false ∧
    check_path_traversal "/tmp/%2e%2e/etc" = Except.ok () ∧
    validate_path fsPct vTmp "/tmp/%2e%2e/etc" = Except.ok "/tmp/%2e%2e/etc" := by
  decide

/-- C10: a path whose string contains `..` only inside a single file name —
no `ParentDir` component and none of the suspicious substrings
(case-insensitively) — passes `check_path_traversal`, and `validate_path`
never rejects it as `PathTraversal`. -/
theorem traversal_benign_double_dot (fs : FS) (v : PathValidator) (p : String)
    (h1 : hasParentDirComp p = false)
    (h2 : ∀ pat ∈ suspiciousPatterns, strContains (strLower p) pat = false) :
    check_path_traversal p = Except.ok () ∧
    ∀ s, validate_path fs v p ≠ Except.error (PathValidationError.pathTraversal s) := by
  have hany : suspiciousPatterns.any (fun pat => strContains (strLower p) pat) = false := by
    cases hA : suspiciousPatterns.any (fun pat => strContains (strLower p) pat) with
    | false => rfl
    | true =>
      rcases List.any_eq_true.mp hA with ⟨pat, hmem, hc⟩
      rw [h2 pat hmem] at hc
      exact absurd hc (by simp)
  have hchk : check_path_traversal p = Except.ok () := by
    unfold check_path_traversal
    rw [h1]
    simp only [if_false, Bool.false_eq_true]
    cases strContains p ".." with
    | false => simp
    | true => simp [hany]
  refine ⟨hchk, ?_⟩
  intro s hcontra
  unfold validate_path at hcontra
  simp only [hchk] at hcontra
  split at hcontra
  next e heq =>
    simp only [Except.error.injEq] at hcontra
    rw [hcontra] at heq
    exact resolve_canonical_no_traversal fs p s heq
  next c heq =>
    split at hcontra
    next e heq2 =>
      simp only [Except.error.injEq] at hcontra
      rw [hcontra] at heq2
      exact validate_symlink_no_traversal fs p s heq2
    next u heq2 =>
      split at hcontra
      · split at hcontra
        next e heq3 =>
          simp only [Except.error.injEq] at hcontra
          rw [hcontra] at heq3
          exact check_allowed_no_traversal fs v.allowed_dirs c s heq3
        next u2 heq3 => exact Except.noConfusion hcontra
      · exact Except.noConfusion hcontra

/-- Closed witness for the C10 theorem at the concrete file name
`file..name.txt`. -/
theorem traversal_benign_double_dot_witness :
    check_path_traversal "file..name.txt" = Except.ok () ∧
    ∀ s, validate_path fsPct vTmp "file..name.txt" ≠
      Except.error (PathValidationError.pathTraversal s) :=
  traversal_benign_double_dot fsPct vTmp "file..name.txt" (by decide) (by decide)

/-- C2: with enforcement on and a non-empty allowlist, for a path that
passes the traversal and symlink checks and canonicalizes to `c`,
validation succeeds (returning `c`) iff `c` is equal to, or a descendant
of, some allowlist member; otherwise it fails with
`NotInAllowedDirectory c`.  Since `c` is the symlink-resolved form, a
symlink inside an allowed directory resolving outside every allowed
directory is rejected (see the witness). -/
theorem validate_allowlist_iff (fs : FS) (v : PathValidator) (p c : String)
    (henf : v.enforce_allowlist = true)
    (hne : v.allowed_dirs ≠ [])
    (htrav : check_path_traversal p = Except.ok ())
    (hcanon : fs.canonicalize p = some c)
    (hsym : validate_symlink fs p = Except.ok ()) :
    (validate_path fs v p = Except.ok c ↔
      v.allowed_dirs.any (fun d => pathEq c d || pathStartsWith c d) = true) ∧
    (v.allowed_dirs.any (fun d => pathEq c d || pathStartsWith c d) = false →
      validate_path fs v p = Except.error (PathValidationError.notInAllowedDirectory c)) := by
  have hres : resolve_canonical fs p = Except.ok c := by
    unfold resolve_canonical
    rw [hcanon]
  have hvp : validate_path fs v p =
      (if v.allowed_dirs.any (fun d => pathEq c d || pathStartsWith c d)
       then Except.ok c
       else Except.error (PathValidationError.notInAllowedDirectory c)) := by
    rw [validate_path_eq fs v p c htrav hres hsym henf,
      check_allowed_spec fs v.allowed_dirs c hne]
    cases hA : v.allowed_dirs.any (fun d => pathEq c d || pathStartsWith c d) <;>
      simp [hA]
  constructor
  · rw [hvp]
    cases hA : v.allowed_dirs.any (fun d => pathEq c d || pathStartsWith c d) <;>
      simp [hA]
  · intro hA
    rw [hvp, hA]
    simp

/-- Closed witness for the C2 theorem: the symlink `/tmp/A/link`, physically
inside the allowed directory `/tmp/A` but resolving to `/tmp/B/f.txt`, is
rejected with `NotInAllowedDirectory`; the regular file `/tmp/A/ok.txt`
inside `/tmp/A` validates to its canonical form. -/
theorem validate_allowlist_iff_witness :
    validate_path fsSym vSymA "/tmp/A/link" =
      Except.error (PathValidationError.notInAllowedDirectory "/tmp/B/f.txt") ∧
    validate_path fsSym vSymA "/tmp/A/ok.txt" = Except.ok "/tmp/A/ok.txt" :=
  ⟨(validate_allowlist_iff fsSym vSymA "/tmp/A/link" "/tmp/B/f.txt"
      (by decide) (by decide) (by decide) (by decide) (by decide)).2 (by decide),
   (validate_allowlist_iff fsSym vSymA "/tmp/A/ok.txt" "/tmp/A/ok.txt"
      (by decide) (by decide) (by decide) (by decide) (by decide)).1.mpr (by decide)⟩

/-- C3: with enforcement on and an empty allowlist, any path that passes
the traversal and symlink checks and resolves to a canonical form fails
with `NoAllowedDirectories`; in particular, after
`clear_allowed_directories` such a path always fails with
`NoAllowedDirectories`, whatever the previous allowlist was. -/
theorem validate_fail_closed (fs : FS) (v : PathValidator) (p c : String)
    (henf : v.enforce_allowlist = true)
    (htrav : check_path_traversal p = Except.ok ())
    (hres : resolve_canonical fs p = Except.ok c)
    (hsym : validate_symlink fs p = Except.ok ()) :
    (v.allowed_dirs = [] →
      validate_path fs v p = Except.error PathValidationError.noAllowedDirectories) ∧
    validate_path fs (clear_allowed_directories v) p =
      Except.error PathValidationError.noAllowedDirectories := by
  have key : ∀ w : PathValidator, w.enforce_allowlist = true → w.allowed_dirs = [] →
      validate_path fs w p = Except.error PathValidationError.noAllowedDirectories := by
    intro w hw hdirs
    rw [validate_path_eq fs w p c htrav hres hsym hw, hdirs]
    unfold check_allowed_directory
    simp
  exact ⟨fun h => key v henf h, key (clear_allowed_directories v) henf rfl⟩

/-- Closed witness for the C3 theorem: `/tmp/A/ok.txt` validates under the
allowlist `[/tmp/A]`, and after `clear_allowed_directories` the same path
fails with `NoAllowedDirectories`. -/
theorem validate_fail_closed_witness :
    validate_path fsSym vSymA "/tmp/A/ok.txt" = Except.ok "/tmp/A/ok.txt" ∧
    validate_path fsSym (clear_allowed_directories vSymA) "/tmp/A/ok.txt" =
      Except.error PathValidationError.noAllowedDirectories :=
  ⟨by decide,
   (validate_fail_closed fsSym vSymA "/tmp/A/ok.txt" "/tmp/A/ok.txt"
      (by decide) (by decide) (by decide) (by decide)).2⟩

/-- C7: when a path passes the traversal check but does not itself
canonicalize, `validate_path` canonicalizes the parent and re-appends the
final segment, so a not-yet-created file under an existing allowed
ancestor validates to `join(parentCanonical, fileName)`; if the parent
cannot be resolved either (or there is no parent), it fails with
`IoError`, and with `InvalidPath` when there is no final segment. -/
theorem validate_parent_fallback (fs : FS) (v : PathValidator) (p par pc fn : String)
    (htrav : check_path_traversal p = Except.ok ())
    (hmiss : fs.canonicalize p = none) :
    (parentPath p = some par → fs.canonicalize par = some pc → fileName p = some fn →
      resolve_canonical fs p = Except.ok (joinPath pc fn) ∧
      (validate_symlink fs p = Except.ok () → v.enforce_allowlist = true →
       v.allowed_dirs.any
         (fun d => pathEq (joinPath pc fn) d || pathStartsWith (joinPath pc fn) d) = true →
       validate_path fs v p = Except.ok (joinPath pc fn))) ∧
    (parentPath p = none →
      validate_path fs v p = Except.error PathValidationError.ioErrorPV) ∧
    (parentPath p = some par → fs.canonicalize par = none →
      validate_path fs v p = Except.error PathValidationError.ioErrorPV) ∧
    (parentPath p = some par → fs.canonicalize par = some pc → fileName p = none →
      validate_path fs v p = Except.error (PathValidationError.invalidPath p)) := by
  have hverr : ∀ e, resolve_canonical fs p = Except.error e →
      validate_path fs v p = Except.error e := by
    intro e hres
    unfold validate_path
    simp only [htrav, hres]
  refine ⟨?_, ?_, ?_, ?_⟩
  · intro hpar hpc hfn
    have hres : resolve_canonical fs p = Except.ok (joinPath pc fn) := by
      unfold resolve_canonical
      simp only [hmiss, hpar, hpc, hfn]
    refine ⟨hres, ?_⟩
    intro hsym henf hany
    have hne : v.allowed_dirs ≠ [] := by
      intro hnil
      rw [hnil] at hany
      exact absurd hany (by simp)
    rw [validate_path_eq fs v p (joinPath pc fn) htrav hres hsym henf,
      check_allowed_spec fs v.allowed_dirs (joinPath pc fn) hne, hany]
    simp
  · intro hpar
    refine hverr _ ?_
    unfold resolve_canonical
    simp only [hmiss, hpar]
  · intro hpar hpc
    refine hverr _ ?_
    unfold resolve_canonical
    simp only [hmiss, hpar, hpc]
  · intro hpar hpc hfn
    refine hverr _ ?_
    unfold resolve_canonical
    simp only [hmiss, hpar, hpc, hfn]

/-- Filesystem in which `/tmp/proj` exists (canonical form itself) but
`/tmp/proj/new.txt` does not exist yet, and the root never resolves. -/
def fsNew : FS :=
  { canonicalize := fun s => if s = "/tmp/proj" then some "/tmp/proj" else none
    isSymlink := fun _ => false
    readlinkOk := fun _ => true
    isFile := fun _ => false
    openOk := fun _ => true }

/-- Validator allowing `/tmp/proj`, enforcement on. -/
def vProj : PathValidator := { allowed_dirs := ["/tmp/proj"], enforce_allowlist := true }

/-- Closed witness for the C7 theorem: the not-yet-created
`/tmp/proj/new.txt` validates via its canonicalized parent, and a path
with no resolvable parent fails with `IoError`. -/
theorem validate_parent_fallback_witness :
    validate_path fsNew vProj "/tmp/proj/new.txt" = Except.ok "/tmp/proj/new.txt" ∧
    validate_path fsNew vProj "/elsewhere/new.txt" =
      Except.error PathValidationError.ioErrorPV :=
  ⟨((validate_parent_fallback fsNew vProj "/tmp/proj/new.txt" "/tmp/proj" "/tmp/proj"
      "new.txt" (by decide) (by decide)).1 (by decide) (by decide) (by decide)).2
      (by decide) (by decide) (by decide),
   (validate_parent_fallback fsNew vProj "/elsewhere/new.txt" "/elsewhere" "" ""
      (by decide) (by decide)).2.2.1 (by decide) (by decide)⟩

/-- C4 counterexample: the rejection of a too-short token is not a typed
`TooShort` error kind but an ad hoc formatted message string that embeds
the token's length — two tokens that are both shorter than 32 characters
(31 and 30 `a`s) are rejected with two different error values, the bail
messages, refuting the claim's assertion that rejections are delivered
"as distinguishable typed error kinds rather than ad hoc strings". -/
theorem validate_plugin_token_counterexample :
    validate_plugin_token (String.mk (List.replicate 31 'a')) = Except.error
      "Plugin token must be at least 32 characters long. Got 31 characters. Use a cryptographically secure random token." ∧
    validate_plugin_token (String.mk (List.replicate 30 'a')) = Except.error
      "Plugin token must be at least 32 characters long. Got 30 characters. Use a cryptographically secure random token." ∧
    validate_plugin_token (String.mk (List.replicate 31 'a')) ≠
      validate_plugin_token (String.mk (List.replicate 30 'a')) := by
  decide

/-- C4 (amended): the token validator is a pure function accepting a token
iff its length (in bytes) is between 32 and 1024 inclusive and every
character is ASCII alphanumeric or one of `-_.=+`; a too-short token is
rejected by the too-short bail site, a too-long one by the too-long bail
site, and an in-range token with an invalid character by the
invalid-characters bail site — three distinct `anyhow` message templates
(ad hoc strings distinguishable by content, not typed error kinds). -/
theorem validate_plugin_token_amended (t : String) :
    (validate_plugin_token t = Except.ok () ↔
      (32 ≤ t.utf8ByteSize ∧ t.utf8ByteSize ≤ 1024 ∧ t.data.all validTokenChar = true)) ∧
    (t.utf8ByteSize < 32 →
      validate_plugin_token t = Except.error (tooShortMsg t.utf8ByteSize)) ∧
    (1024 < t.utf8ByteSize →
      validate_plugin_token t = Except.error (tooLongMsg t.utf8ByteSize)) ∧
    (32 ≤ t.utf8ByteSize → t.utf8ByteSize ≤ 1024 → t.data.all validTokenChar = false →
      validate_plugin_token t = Except.error invalidCharsMsg) := by
  refine ⟨?_, ?_, ?_, ?_⟩
  · unfold validate_plugin_token
    by_cases h1 : t.utf8ByteSize < 32
    · rw [if_pos h1]
      constructor
      · intro h
        exact absurd h (by simp)
      · rintro ⟨ha, -, -⟩
        omega
    · rw [if_neg h1]
      by_cases h2 : t.utf8ByteSize > 1024
      · rw [if_pos h2]
        constructor
        · intro h
          exact absurd h (by simp)
        · rintro ⟨-, hb, -⟩
          omega
      · rw [if_neg h2]
        by_cases h3 : t.data.all validTokenChar = true
        · rw [if_neg (by simp [h3])]
          constructor
          · intro _
            exact ⟨by omega, by omega, h3⟩
          · intro _
            rfl
        · have h3f : t.data.all validTokenChar = false := by
            cases hx : t.data.all validTokenChar with
            | true => exact absurd hx h3
            | false => rfl
          rw [if_pos (by simp [h3f])]
          constructor
          · intro h
            exact absurd h (by simp)
          · rintro ⟨-, -, hc⟩
            rw [h3f] at hc
            exact absurd hc (by simp)
  · intro h1
    unfold validate_plugin_token
    rw [if_pos h1]
  · intro h2
    unfold validate_plugin_token
    rw [if_neg (by omega), if_pos h2]
  · intro ha hb hc
    unfold validate_plugin_token
    rw [if_neg (by omega), if_neg (by omega), if_pos (by simp [hc])]

/-- Closed witness for the amended C4 theorem: a 32-character alphanumeric
token succeeds; a 31-character token fails with the too-short message; a
1025-character token fails with the too-long message; a 32-character
token containing a space fails with the invalid-characters message. -/
theorem validate_plugin_token_amended_witness :
    validate_plugin_token (String.mk (List.replicate 32 'a')) = Except.ok () ∧
    validate_plugin_token (String.mk (List.replicate 31 'a')) =
      Except.error (tooShortMsg 31) ∧
    validate_plugin_token (String.mk (List.replicate 1025 'a')) =
      Except.error (tooLongMsg 1025) ∧
    validate_plugin_token ("a b" ++ String.mk (List.replicate 29 'a')) =
      Except.error invalidCharsMsg :=
  ⟨(validate_plugin_token_amended (String.mk (List.replicate 32 'a'))).1.mpr (by decide),
   (validate_plugin_token_amended (String.mk (List.replicate 31 'a'))).2.1 (by decide),
   (validate_plugin_token_amended (String.mk (List.replicate 1025 'a'))).2.2.1 (by decide),
   (validate_plugin_token_amended ("a b" ++ String.mk (List.replicate 29 'a'))).2.2.2
     (by decide) (by decide) (by decide)⟩

/-- C5: when both the locked path and the requested path canonicalize,
`open_readonly` fails with `WriteAttemptBlocked` whenever the canonical
target is not equal to or nested under the canonical locked path, and on
success returns a handle opened with `read`, `write(false)`,
`create(false)` and `O_RDONLY | O_NOFOLLOW`; the `ReadOnlyFile` type
carries no write operation. -/
theorem open_readonly_spec (fs : FS) (lk : ReadOnlyLock) (target lc tc : String)
    (hl : fs.canonicalize lk.path = some lc)
    (ht : fs.canonicalize target = some tc) :
    (pathStartsWith tc lc = false →
      open_readonly fs lk target = Except.error (RoLockError.writeAttemptBlocked
        ("Path " ++ target ++ " is outside locked area " ++ lk.path))) ∧
    (pathStartsWith tc lc = true → fs.openOk target = true →
      open_readonly fs lk target = Except.ok
        { flags := { read := true, write := false, create := false,
                     o_rdonly := true, o_nofollow := true },
          path := target }) := by
  have h0 : open_readonly fs lk target =
      (if !pathStartsWith tc lc then
        Except.error (RoLockError.writeAttemptBlocked
          ("Path " ++ target ++ " is outside locked area " ++ lk.path))
       else if fs.openOk target then
        Except.ok { flags := { read := true, write := false, create := false,
                               o_rdonly := true, o_nofollow := true },
                    path := target }
       else Except.error RoLockError.ioErrorRo) := by
    unfold open_readonly
    simp only [hl, ht]
  constructor
  · intro hs
    rw [h0, hs]
    simp
  · intro hs hopen
    rw [h0, hs, hopen]
    simp

/-- Lock guard on `/tmp/A` at mount level (fields as produced by a
file-level acquisition on that directory without privileges). -/
def lkA : ReadOnlyLock :=
  { path := "/tmp/A", lock_level := .mountReadOnly, loop_device := none,
    mount_point := none, is_active := true }

/-- Closed witness for the C5 theorem: opening the symlink `/tmp/A/link`
(resolving to `/tmp/B/f.txt`, outside the locked root `/tmp/A`) is
rejected with `WriteAttemptBlocked`; opening `/tmp/A/ok.txt` succeeds with
the read-only flag set and write disabled. -/
theorem open_readonly_spec_witness :
    open_readonly fsSym lkA "/tmp/A/link" = Except.error
      (RoLockError.writeAttemptBlocked
        "Path /tmp/A/link is outside locked area /tmp/A") ∧
    open_readonly fsSym lkA "/tmp/A/ok.txt" = Except.ok
      { flags := { read := true, write := false, create := false,
                   o_rdonly := true, o_nofollow := true },
        path := "/tmp/A/ok.txt" } :=
  ⟨(open_readonly_spec fsSym lkA "/tmp/A/link" "/tmp/A" "/tmp/B/f.txt"
      (by decide) (by decide)).1 (by decide),
   (open_readonly_spec fsSym lkA "/tmp/A/ok.txt" "/tmp/A" "/tmp/A/ok.txt"
      (by decide) (by decide)).2 (by decide) (by decide)⟩

/-- The guard record `acquire` constructs before applying a mechanism. -/
def initLock (p : String) (level : LockLevel) : ReadOnlyLock :=
  { path := p, lock_level := level, loop_device := none,
    mount_point := none, is_active := false }

/-- C6: for an existing path, a permission failure (stderr containing
"Permission denied" or "Operation not permitted") of the `losetup` call —
or of the `mount` call — does not fail `acquire`: it returns `Ok` with the
corresponding `loop_device`/`mount_point` field unset, while a
non-permission failure of the same call propagates as `LoopDeviceError`
or `MountError`. -/
theorem acquire_privilege_downgrade (env : RoEnv) (p stderr mp : String)
    (hex : env.pathExists p = true) :
    (determine_lock_level env p = LockLevel.loopDevice →
      env.losetup p = CmdOut.failed stderr →
      (isPermissionStderr stderr = true →
        ∃ lk, acquire env p = Except.ok lk ∧ lk.loop_device = none ∧
          lk.mount_point = none ∧ lk.is_active = true) ∧
      (isPermissionStderr stderr = false →
        acquire env p = Except.error (RoLockError.loopDeviceError stderr))) ∧
    (determine_lock_level env p = LockLevel.mountReadOnly →
      env.tempdir = Except.ok mp →
      env.mount p mp = CmdOut.failed stderr →
      (isPermissionStderr stderr = true →
        ∃ lk, acquire env p = Except.ok lk ∧ lk.mount_point = none ∧
          lk.loop_device = none ∧ lk.is_active = true) ∧
      (isPermissionStderr stderr = false →
        acquire env p = Except.error (RoLockError.mountError stderr))) := by
  constructor
  · intro hlvl hlos
    have hacq : acquire env p =
        (match setup_loop_device env (initLock p .loopDevice) with
         | .error e => .error e
         | .ok lk2 => .ok { lk2 with is_active := true }) := by
      unfold acquire
      simp only [hex, Bool.not_true, Bool.false_eq_true, if_false, hlvl]
      rfl
    have hsetup : setup_loop_device env (initLock p .loopDevice) =
        (if isPermissionStderr stderr then Except.ok (initLock p .loopDevice)
         else Except.error (RoLockError.loopDeviceError stderr)) := by
      unfold setup_loop_device initLock
      simp only [hlos]
    constructor
    · intro hperm
      rw [hperm] at hsetup
      refine ⟨{ initLock p .loopDevice with is_active := true }, ?_, rfl, rfl, rfl⟩
      rw [hacq, hsetup]
      simp
    · intro hperm
      rw [hperm] at hsetup
      rw [hacq, hsetup]
      simp
  · intro hlvl htmp hmnt
    have hacq : acquire env p =
        (match setup_ro_mount env (initLock p .mountReadOnly) with
         | .error e => .error e
         | .ok lk2 => .ok { lk2 with is_active := true }) := by
      unfold acquire
      simp only [hex, Bool.not_true, Bool.false_eq_true, if_false, hlvl]
      rfl
    have hsetup : setup_ro_mount env (initLock p .mountReadOnly) =
        (if isPermissionStderr stderr then Except.ok (initLock p .mountReadOnly)
         else Except.error (RoLockError.mountError stderr)) := by
      unfold setup_ro_mount initLock
      simp only [htmp, Option.getD_none, hmnt]
    constructor
    · intro hperm
      rw [hperm] at hsetup
      refine ⟨{ initLock p .mountReadOnly with is_active := true }, ?_, rfl, rfl, rfl⟩
      rw [hacq, hsetup]
      simp
    · intro hperm
      rw [hperm] at hsetup
      rw [hacq, hsetup]
      simp

/-- Environment in which every path exists, `/data/dir` is a directory,
and both `losetup` and `mount` fail with permission errors. -/
def envPerm : RoEnv :=
  { pathExists := fun _ => true
    isBlockDevice := fun _ => false
    isDir := fun s => s = "/data/dir"
    losetup := fun _ => CmdOut.failed "losetup: Permission denied"
    tempdir := Except.ok "/tmp/mnt123"
    mount := fun _ _ => CmdOut.failed "mount: Operation not permitted" }

/-- Environment in which `losetup` and `mount` fail for a reason other
than privilege. -/
def envHard : RoEnv :=
  { pathExists := fun _ => true
    isBlockDevice := fun _ => false
    isDir := fun s => s = "/data/dir"
    losetup := fun _ => CmdOut.failed "losetup: device is busy"
    tempdir := Except.ok "/tmp/mnt123"
    mount := fun _ _ => CmdOut.failed "mount: unknown filesystem type" }

/-- Closed witness for the C6 theorem: under permission failures,
acquiring the disk image `/data/disk.img` and the directory `/data/dir`
both succeed with the loop-device/mount fields unset; under
non-permission failures the same acquisitions fail with
`LoopDeviceError`/`MountError`. -/
theorem acquire_privilege_downgrade_witness :
    (∃ lk, acquire envPerm "/data/disk.img" = Except.ok lk ∧
      lk.loop_device = none ∧ lk.mount_point = none ∧ lk.is_active = true) ∧
    (∃ lk, acquire envPerm "/data/dir" = Except.ok lk ∧
      lk.mount_point = none ∧ lk.loop_device = none ∧ lk.is_active = true) ∧
    acquire envHard "/data/disk.img" =
      Except.error (RoLockError.loopDeviceError "losetup: device is busy") ∧
    acquire envHard "/data/dir" =
      Except.error (RoLockError.mountError "mount: unknown filesystem type") :=
  ⟨((acquire_privilege_downgrade envPerm "/data/disk.img"
      "losetup: Permission denied" "/tmp/mnt123" (by decide)).1
      (by decide) (by decide)).1 (by decide),
   ((acquire_privilege_downgrade envPerm "/data/dir"
      "mount: Operation not permitted" "/tmp/mnt123" (by decide)).2
      (by decide) (by decide) (by decide)).1 (by decide),
   ((acquire_privilege_downgrade envHard "/data/disk.img"
      "losetup: device is busy" "/tmp/mnt123" (by decide)).1
      (by decide) (by decide)).2 (by decide),
   ((acquire_privilege_downgrade envHard "/data/dir"
      "mount: unknown filesystem type" "/tmp/mnt123" (by decide)).2
      (by decide) (by decide) (by decide)).2 (by decide)⟩

/-- C8: batch validation is all-or-nothing: when every entry validates,
`validate_paths` returns the full list of validated canonical paths (in
order); when it fails, the error is the error of the first failing entry,
every entry before it having validated — no partial success value is ever
produced. -/
theorem validate_paths_all_or_nothing (fs : FS) (v : PathValidator)
    (paths : List String) :
    ((∀ q ∈ paths, Except.isOk (validate_path fs v q) = true) →
      validate_paths fs v paths =
        Except.ok (paths.filterMap (fun q => (validate_path fs v q).toOption))) ∧
    (∀ e, validate_paths fs v paths = Except.error e →
      ∃ pre q suf, paths = pre ++ q :: suf ∧
        validate_path fs v q = Except.error e ∧
        ∀ r ∈ pre, Except.isOk (validate_path fs v r) = true) := by
  induction paths with
  | nil =>
    constructor
    · intro _
      rfl
    · intro e he
      exact absurd he (by simp [validate_paths])
  | cons p rest ih =>
    constructor
    · intro h
      have hp := h p (by simp)
      cases hv : validate_path fs v p with
      | error e =>
        rw [hv] at hp
        simp [Except.isOk, Except.toBool] at hp
      | ok c =>
        have hrest := ih.1 (fun q hq => h q (by simp [hq]))
        unfold validate_paths
        rw [hv, hrest]
        simp [List.filterMap_cons, hv, Except.toOption]
    · intro e he
      unfold validate_paths at he
      cases hv : validate_path fs v p with
      | error e2 =>
        rw [hv] at he
        have he2 : e2 = e := by
          simpa using he
        refine ⟨[], p, rest, by simp, by rw [hv, he2], ?_⟩
        intro r hr
        exact absurd hr (by simp)
      | ok c =>
        rw [hv] at he
        cases hr : validate_paths fs v rest with
        | error e3 =>
          rw [hr] at he
          have he3 : e3 = e := by
            simpa using he
          obtain ⟨pre, q, suf, h1, h2, h3⟩ := ih.2 e (by rw [hr, he3])
          refine ⟨p :: pre, q, suf, by simp [h1], h2, ?_⟩
          intro r hrm
          rcases List.mem_cons.mp hrm with hrp | hrpre
          · rw [hrp, hv]
            rfl
          · exact h3 r hrpre
        | ok cs =>
          rw [hr] at he
          exact absurd he (by simp)

/-- Closed witness for the C8 theorem: a batch whose entries all validate
returns the full canonical list; a batch whose second entry is the
escaping symlink fails with that entry's `NotInAllowedDirectory` error,
the first entry having validated. -/
theorem validate_paths_all_or_nothing_witness :
    validate_paths fsSym vSymA ["/tmp/A/ok.txt"] = Except.ok ["/tmp/A/ok.txt"] ∧
    (∃ pre q suf, (["/tmp/A/ok.txt", "/tmp/A/link"] : List String) = pre ++ q :: suf ∧
      validate_path fsSym vSymA q =
        Except.error (PathValidationError.notInAllowedDirectory "/tmp/B/f.txt") ∧
      ∀ r ∈ pre, Except.isOk (validate_path fsSym vSymA r) = true) :=
  ⟨(validate_paths_all_or_nothing fsSym vSymA ["/tmp/A/ok.txt"]).1 (by decide),
   (validate_paths_all_or_nothing fsSym vSymA ["/tmp/A/ok.txt", "/tmp/A/link"]).2
     (PathValidationError.notInAllowedDirectory "/tmp/B/f.txt") (by decide)⟩

/-- C9: `check_write` never returns normally: every outcome is a panic —
the boxed write-attempt diagnostic (naming the path and the locked entry)
when the path canonicalizes under some locked path, and the
`unreachable!` panic otherwise, including when called on a path not under
any lock. -/
theorem check_write_always_panics (fs : FS) (g : WriteGuard) (p : String) :
    (∀ o : PanicOutcome, check_write fs g p = o →
      (∃ a b, o = PanicOutcome.writeBlocked a b) ∨
        o = PanicOutcome.unreachableNonLocked) ∧
    (g.locked_paths.any (lockHit fs p) = true →
      ∃ locked ∈ g.locked_paths,
        check_write fs g p = PanicOutcome.writeBlocked p locked) ∧
    (g.locked_paths.any (lockHit fs p) = false →
      check_write fs g p = PanicOutcome.unreachableNonLocked) := by
  have main : ∀ l : List String,
      (l.any (lockHit fs p) = true →
        ∃ locked ∈ l, checkWriteGo fs p l = PanicOutcome.writeBlocked p locked) ∧
      (l.any (lockHit fs p) = false →
        checkWriteGo fs p l = PanicOutcome.unreachableNonLocked) := by
    intro l
    induction l with
    | nil =>
      refine ⟨?_, fun _ => rfl⟩
      intro h
      exact absurd h (by simp)
    | cons locked rest ih =>
      have hgo : checkWriteGo fs p (locked :: rest) =
          (if lockHit fs p locked then PanicOutcome.writeBlocked p locked
           else checkWriteGo fs p rest) := rfl
      constructor
      · intro h
        rw [List.any_cons] at h
        cases hl : lockHit fs p locked with
        | true =>
          refine ⟨locked, by simp, ?_⟩
          rw [hgo, hl]
          simp
        | false =>
          rw [hl] at h
          simp only [Bool.false_or] at h
          obtain ⟨q, hq, hgoq⟩ := ih.1 h
          refine ⟨q, by simp [hq], ?_⟩
          rw [hgo, hl]
          simpa using hgoq
      · intro h
        rw [List.any_cons, Bool.or_eq_false_iff] at h
        rw [hgo, h.1]
        simpa using ih.2 h.2
  refine ⟨?_, (main g.locked_paths).1, (main g.locked_paths).2⟩
  intro o _
  cases o with
  | writeBlocked a b => exact Or.inl ⟨a, b, rfl⟩
  | unreachableNonLocked => exact Or.inr rfl

/-- Filesystem for the write-guard scenario: `/tmp` and `/tmp/test`
canonicalize to themselves; other paths do not resolve. -/
def fsCw : FS :=
  { canonicalize := fun s =>
      if s = "/tmp" then some "/tmp"
      else if s = "/tmp/test" then some "/tmp/test" else none
    isSymlink := fun _ => false
    readlinkOk := fun _ => true
    isFile := fun _ => false
    openOk := fun _ => true }

/-- Closed witness for the C9 theorem: with `/tmp` locked, `check_write`
on `/tmp/test` panics with the write-blocked diagnostic, and on a
non-locked path it panics via the unreachable branch — it never returns
normally. -/
theorem check_write_always_panics_witness :
    (∃ locked ∈ (⟨["/tmp"]⟩ : WriteGuard).locked_paths,
      check_write fsCw ⟨["/tmp"]⟩ "/tmp/test" =
        PanicOutcome.writeBlocked "/tmp/test" locked) ∧
    check_write fsCw ⟨["/tmp"]⟩ "/other" = PanicOutcome.unreachableNonLocked :=
  ⟨(check_write_always_panics fsCw ⟨["/tmp"]⟩ "/tmp/test").2.1 (by decide),
   (check_write_always_panics fsCw ⟨["/tmp"]⟩ "/other").2.2 (by decide)⟩

end MdReader
